import Mathlib

/-!
Verification model of two cores of the repository: the DDL job table layer
(`ddl/job_table.go`) and the lazy transaction state machine (the session
package file holding `LazyTxn`).  Go functions are translated into
executable Lean definitions; machine integers become `Int`/`Nat`, byte
strings become `List Nat`, fallible calls return `Except`/`Option`, and
external collaborators (KV client, SQL engine rows, tablecodec predicates)
are passed in as explicit data.
-/

/-- Error values surfaced by the modelled operations.
`reorgElementNotExist` is `meta.ErrDDLReorgElementNotExist`. -/
inductive Err where
  | invalidTxn
  | retryable
  | reorgElementNotExist
  | other (msg : String)
deriving DecidableEq, Repr

/-! ## DDL job canonicalization (`job2UniqueIDs` in ddl/job_table.go)

Go's `slices.Sort` on a `[]string` orders strings byte-wise
lexicographically.  Lean's built-in `String` order does not reduce in the
kernel, so the byte-wise order is modelled explicitly on the byte lists of
the strings. -/

/-- Byte-wise lexicographic strict order, as Go compares strings. -/
def lexLess : List Nat → List Nat → Bool
  | [], [] => false
  | [], _ :: _ => true
  | _ :: _, [] => false
  | a :: as, b :: bs => a < b || (a == b && lexLess as bs)

/-- The bytes of a string (our strings are ASCII decimal digits, a comma,
and a minus sign, whose UTF-8 bytes coincide with their code points). -/
def strBytes (s : String) : List Nat := s.data.map Char.toNat

/-- Go's `a <= b` on strings: not (b < a) byte-wise. -/
def goStrLe (a b : String) : Prop := lexLess (strBytes b) (strBytes a) = false

instance : DecidableRel goStrLe := fun a b => by unfold goStrLe; infer_instance

theorem lexLess_irrefl (x : List Nat) : lexLess x x = false := by
  induction x with
  | nil => rfl
  | cons a as ih => simp [lexLess, ih]

theorem lexLess_asymm (x y : List Nat) (h : lexLess x y = true) :
    lexLess y x = false := by
  induction x generalizing y with
  | nil =>
    cases y with
    | nil => simp [lexLess] at h
    | cons b bs => rfl
  | cons a as ih =>
    cases y with
    | nil => simp [lexLess] at h
    | cons b bs =>
      simp only [lexLess, Bool.or_eq_true, Bool.and_eq_true, decide_eq_true_eq,
        beq_iff_eq, Bool.or_eq_false_iff, Bool.and_eq_false_iff,
        decide_eq_false_iff_not, beq_eq_false_iff_ne, ne_eq] at h ⊢
      rcases h with h | ⟨h1, h2⟩
      · constructor
        · omega
        · left
          omega
      · constructor
        · omega
        · right
          exact ih bs h2

theorem lexLess_trans (x y z : List Nat) (h1 : lexLess x y = true)
    (h2 : lexLess y z = true) : lexLess x z = true := by
  induction x generalizing y z with
  | nil =>
    cases z with
    | nil =>
      cases y with
      | nil => simp [lexLess] at h1
      | cons b bs => simp [lexLess] at h2
    | cons c cs => rfl
  | cons a as ih =>
    cases y with
    | nil => simp [lexLess] at h1
    | cons b bs =>
      cases z with
      | nil => simp [lexLess] at h2
      | cons c cs =>
        simp only [lexLess, Bool.or_eq_true, Bool.and_eq_true,
          decide_eq_true_eq, beq_iff_eq] at h1 h2 ⊢
        rcases h1 with h1 | ⟨hb1, hl1⟩
        · rcases h2 with h2 | ⟨hb2, hl2⟩
          · left
            omega
          · left
            omega
        · rcases h2 with h2 | ⟨hb2, hl2⟩
          · left
            omega
          · right
            exact ⟨by omega, ih bs cs hl1 hl2⟩

theorem lexLess_total (x y : List Nat) :
    lexLess x y = true ∨ lexLess y x = true ∨ x = y := by
  induction x generalizing y with
  | nil =>
    cases y with
    | nil => right; right; rfl
    | cons b bs => left; rfl
  | cons a as ih =>
    cases y with
    | nil => right; left; rfl
    | cons b bs =>
      rcases Nat.lt_trichotomy a b with h | h | h
      · left
        simp [lexLess, h]
      · rcases ih bs with h2 | h2 | h2
        · left
          simp [lexLess, h, h2]
        · right; left
          simp [lexLess, h, h2]
        · right; right
          rw [h, h2]
      · right; left
        simp [lexLess, h]

instance : IsTotal String goStrLe :=
  ⟨fun a b => by
    unfold goStrLe
    rcases lexLess_total (strBytes a) (strBytes b) with h | h | h
    · exact Or.inl (lexLess_asymm _ _ h)
    · exact Or.inr (lexLess_asymm _ _ h)
    · exact Or.inl (by rw [h]; exact lexLess_irrefl _)⟩

instance : IsTrans String goStrLe :=
  ⟨fun a b c hab hbc => by
    unfold goStrLe at hab hbc ⊢
    rcases lexLess_total (strBytes a) (strBytes b) with h1 | h1 | h1
    · rcases lexLess_total (strBytes b) (strBytes c) with h2 | h2 | h2
      · exact lexLess_asymm _ _ (lexLess_trans _ _ _ h1 h2)
      · exact absurd h2 (by rw [hbc]; simp)
      · rw [← h2]
        exact lexLess_asymm _ _ h1
    · exact absurd h1 (by rw [hab]; simp)
    · rw [h1]
      exact hbc⟩

/-- DDL action types relevant to `job2UniqueIDs`'s switch. -/
inductive ActionType where
  | createTable
  | dropSchema
  | addIndex
  | exchangeTablePartition
  | renameTable
  | renameTables
  | otherAction (n : Nat)
deriving DecidableEq, Repr

/-- The fields of `model.Job` used by the job-table layer.  `ctxSchemaIDs`
and `ctxTableIDs` are the two ID lists stored in `job.CtxVars` for
multi-target job types. -/
structure Job where
  id : Int
  jobType : ActionType
  schemaID : Int
  tableID : Int
  ctxSchemaIDs : List Int
  ctxTableIDs : List Int
deriving DecidableEq, Repr

/-- The body of `job2UniqueIDs`'s multi-target branch: put the IDs in a set
(deduplicate; Go's map iteration order is irrelevant because the strings
are sorted afterwards, so deduplication is modelled with `eraseDups`),
format each in base 10, sort the resulting strings byte-wise
lexicographically (Go `slices.Sort` on `[]string`), and comma-join. -/
def canonicalizeIDs (ids : List Int) : String :=
  let set := ids.eraseDups
  let s := set.map (fun id => toString id)
  String.intercalate "," (List.insertionSort goStrLe s)

/-- `job2UniqueIDs(job, schema)`: for ExchangeTablePartition / RenameTables /
RenameTable jobs, canonicalize the corresponding context-variable ID list;
otherwise format the singleton schema or table ID. -/
def job2UniqueIDs (job : Job) (schema : Bool) : String :=
  match job.jobType with
  | .exchangeTablePartition | .renameTables | .renameTable =>
    canonicalizeIDs (if schema then job.ctxSchemaIDs else job.ctxTableIDs)
  | _ => if schema then toString job.schemaID else toString job.tableID

/-- `job2SchemaIDs(job)` = `job2UniqueIDs(job, true)`. -/
def job2SchemaIDs (job : Job) : String :=
  job2UniqueIDs job true

/-- `job2TableIDs(job)` = `job2UniqueIDs(job, false)`. -/
def job2TableIDs (job : Job) : String :=
  job2UniqueIDs job false

/-- Canonicalization as the claim words it: deduplicated, sorted in
ascending NUMERIC order of the IDs, comma-joined.  Written from the spec's
words, for comparison with `canonicalizeIDs` above. -/
def numericCanonicalizeIDs (ids : List Int) : String :=
  String.intercalate ","
    ((List.insertionSort (fun a b : Int => a ≤ b) ids.eraseDups).map
      (fun id => toString id))

/-- A RenameTable job whose schema-ID context variable holds 9 and 10. -/
def exJobC1 : Job :=
  { id := 1, jobType := .renameTable, schemaID := 0, tableID := 0,
    ctxSchemaIDs := [9, 10], ctxTableIDs := [] }

/-- C1 counterexample: on the ID list [9, 10] the code produces "10,9"
(byte-wise lexicographic order of the decimal strings), not the numerically
ascending "9,10" the claim asserts (9 before 10). -/
theorem job2UniqueIDs_numeric_order_counterexample :
    job2SchemaIDs exJobC1 = "10,9" ∧
    numericCanonicalizeIDs [9, 10] = "9,10" ∧
    job2SchemaIDs exJobC1 ≠ numericCanonicalizeIDs [9, 10] :=
  ⟨by decide, by decide, by decide⟩

/-- C1 (amended): for every ExchangeTablePartition / RenameTables /
RenameTable job, the canonicalized string is the job's context-variable ID
list deduplicated, formatted in base 10, sorted in ascending BYTE-WISE
LEXICOGRAPHIC order of the decimal strings, and comma-joined. -/
theorem job2UniqueIDs_canonical (job : Job) (schema : Bool)
    (h : job.jobType = ActionType.exchangeTablePartition ∨
         job.jobType = ActionType.renameTables ∨
         job.jobType = ActionType.renameTable) :
    ∃ l, job2UniqueIDs job schema = String.intercalate "," l ∧
      l.Perm (((if schema then job.ctxSchemaIDs else job.ctxTableIDs).eraseDups).map
        (fun id => toString id)) ∧
      List.Sorted goStrLe l := by
  have hmatch : job2UniqueIDs job schema =
      canonicalizeIDs (if schema then job.ctxSchemaIDs else job.ctxTableIDs) := by
    rcases h with h | h | h <;> simp [job2UniqueIDs, h]
  refine ⟨_, by rw [hmatch]; rfl, List.perm_insertionSort _ _,
    List.sorted_insertionSort _ _⟩

/-- C1 witness: the amended theorem applied to the concrete RenameTable job. -/
theorem job2UniqueIDs_canonical_witness :
    (exJobC1.jobType = ActionType.exchangeTablePartition ∨
     exJobC1.jobType = ActionType.renameTables ∨
     exJobC1.jobType = ActionType.renameTable) ∧
    ∃ l, job2UniqueIDs exJobC1 true = String.intercalate "," l ∧
      l.Perm (((if true then exJobC1.ctxSchemaIDs else exJobC1.ctxTableIDs).eraseDups).map
        (fun id => toString id)) ∧
      List.Sorted goStrLe l :=
  ⟨by decide, job2UniqueIDs_canonical exJobC1 true (by decide)⟩

/-! ## The lazy transaction state machine (`LazyTxn` in the session package)

Wall-clock time is threaded as an explicit `now : Nat` parameter.  Metrics
(histograms, counters) and logging are external effects and are omitted;
everything else in the struct updates follows the source line by line. -/

/-- `txninfo.TxnRunningState`.  The zero value is Idle. -/
inductive TxnRunningState where
  | idle
  | running
  | lockAcquiring
  | committing
  | rollingBack
deriving DecidableEq, Repr

/-- `txninfo.TxnInfo`, restricted to the fields the session file touches.
`blockStartTime` is Go's nullable time: a validity bit plus an instant.
The default values are Go's zero value for the struct. -/
structure TxnInfo where
  startTS : Nat := 0
  state : TxnRunningState := .idle
  lastStateChangeTime : Nat := 0
  blockStartTimeValid : Bool := false
  blockStartTime : Nat := 0
  entriesCount : Nat := 0
  entriesSize : Nat := 0
  currentSQLDigest : String := ""
  allSQLDigests : List String := []
deriving DecidableEq, Repr

/-- The underlying `kv.Transaction`, abstracted to the observations the
session file makes of it: validity, start timestamp, the memory buffer's
length (`GetMemBuffer().Len()`), the transaction's entry count (`Len()`)
and size (`Size()`), and the outcome its `Commit` would produce. -/
structure KVTxn where
  valid : Bool := true
  startTS : Nat := 0
  bufLen : Nat := 0
  len : Nat := 0
  size : Nat := 0
  commitResult : Option Err := none
deriving DecidableEq, Repr

/-- A binlog `TableMutation` (only its identity matters to the claims). -/
structure TableMutation where
  tableId : Int
deriving DecidableEq, Repr

deriving instance DecidableEq for Except

/-- `LazyTxn`.  States: Invalid (txn = none, future = none), Pending
(txn = none, future set), Valid (txn set, future = none).  The future slot
carries the result its `wait()` will deliver.  `stagingHandle = none`
models `kv.InvalidStagingHandle`. -/
structure LazyTxn where
  txn : Option KVTxn := none
  future : Option (Except Err KVTxn) := none
  initCnt : Nat := 0
  stagingHandle : Option Nat := none
  mutations : List TableMutation := []
  mu : TxnInfo := {}
deriving DecidableEq, Repr

/-- `LazyTxn.Valid()`: Transaction non-nil and valid. -/
def LazyTxn.Valid (t : LazyTxn) : Bool :=
  match t.txn with
  | some k => k.valid
  | none => false

/-- `LazyTxn.pending()`: Transaction nil and future non-nil. -/
def LazyTxn.pending (t : LazyTxn) : Bool :=
  t.txn.isNone && t.future.isSome

/-- `LazyTxn.validOrPending()`. -/
def LazyTxn.validOrPending (t : LazyTxn) : Bool :=
  t.future.isSome || t.Valid

/-- `GetMemBuffer().Len()` of the embedded transaction (the source
dereferences the Transaction pointer; the nil case is unreachable whenever
this is called). -/
def LazyTxn.memBufLen (t : LazyTxn) : Nat :=
  match t.txn with
  | some k => k.bufLen
  | none => 0

/-- `Transaction.Len()`. -/
def LazyTxn.txnLen (t : LazyTxn) : Nat :=
  match t.txn with
  | some k => k.len
  | none => 0

/-- `Transaction.Size()`. -/
def LazyTxn.txnSize (t : LazyTxn) : Nat :=
  match t.txn with
  | some k => k.size
  | none => 0

/-- `countHint()`: 0 with no staging handle, else buffer length minus the
length snapshotted when the statement buffer was opened. -/
def LazyTxn.countHint (t : LazyTxn) : Int :=
  match t.stagingHandle with
  | none => 0
  | some _ => (t.memBufLen : Int) - (t.initCnt : Int)

/-- `initStmtBuf()`: with no transaction do nothing; otherwise snapshot the
buffer length into `initCnt` and open a staging handle at it. -/
def LazyTxn.initStmtBuf (t : LazyTxn) : LazyTxn :=
  match t.txn with
  | none => t
  | some k => { t with initCnt := k.bufLen, stagingHandle := some k.bufLen }

/-- `cleanupStmtBuf()`: with no staging handle do nothing; otherwise the
buffer's `Cleanup` reverts it to the staging point, `initCnt` is refreshed,
and the entry counters are refreshed from the transaction under lock. -/
def LazyTxn.cleanupStmtBuf (t : LazyTxn) : LazyTxn :=
  match t.stagingHandle with
  | none => t
  | some _ =>
    let t1 := { t with txn := t.txn.map (fun (k : KVTxn) => { k with bufLen := t.initCnt }) }
    { t1 with mu := { t1.mu with entriesCount := t1.txnLen, entriesSize := t1.txnSize } }

/-- `cleanup()`: discard the statement buffer, reopen a fresh staging
frame, and clear the binlog mutations map. -/
def LazyTxn.cleanup (t : LazyTxn) : LazyTxn :=
  let t1 := t.cleanupStmtBuf
  let t2 := t1.initStmtBuf
  { t2 with mutations := [] }

/-- `changeToInvalid()`: drop the staging handle, the transaction, and the
future; zero the TxnInfo (the duration histogram sample is an external
metric and is omitted). -/
def LazyTxn.changeToInvalid (t : LazyTxn) : LazyTxn :=
  { t with stagingHandle := none, txn := none, future := none, mu := {} }

/-- `reset()` = `cleanup()` then `changeToInvalid()`. -/
def LazyTxn.reset (t : LazyTxn) : LazyTxn :=
  t.cleanup.changeToInvalid

/-- `updateState` on the TxnInfo (called under lock in the source): a
transition to the same state is a no-op; otherwise the state and its
change time are updated (histogram and counter emissions omitted). -/
def TxnInfo.updateState (info : TxnInfo) (now : Nat) (s : TxnRunningState) : TxnInfo :=
  if info.state = s then info
  else { info with state := s, lastStateChangeTime := now }

/-- `maxTransactionStmtHistory`: at most 50 history digests are kept. -/
def maxTransactionStmtHistory : Nat := 50

/-- `onStmtStart(digest)`: an empty digest returns immediately; otherwise
the state becomes Running, the current digest is overwritten, and the
digest is appended to the history only while fewer than 50 are present. -/
def LazyTxn.onStmtStart (t : LazyTxn) (now : Nat) (currentSQLDigest : String) : LazyTxn :=
  if currentSQLDigest.length = 0 then t
  else
    let info := t.mu.updateState now .running
    let info := { info with currentSQLDigest := currentSQLDigest }
    let info :=
      if info.allSQLDigests.length < maxTransactionStmtHistory then
        { info with allSQLDigests := info.allSQLDigests ++ [currentSQLDigest] }
      else info
    { t with mu := info }

/-- `onStmtEnd()`: clear the current digest and return to Idle. -/
def LazyTxn.onStmtEnd (t : LazyTxn) (now : Nat) : LazyTxn :=
  let info := { t.mu with currentSQLDigest := "" }
  { t with mu := info.updateState now .idle }

/-- A sequence of `onStmtStart` calls (left to right). -/
def runStmtStarts (t : LazyTxn) (now : Nat) (ds : List String) : LazyTxn :=
  ds.foldl (fun s d => s.onStmtStart now d) t

/-- The outcome of `LazyTxn.Commit`: the returned error, whether a commit
was issued on the underlying KV transaction, and the session transaction
object after the deferred `reset()` ran. -/
structure CommitOutcome where
  err : Option Err
  kvCommitIssued : Bool
  st : LazyTxn
deriving DecidableEq, Repr

/-- `Commit(ctx)`: `defer txn.reset()` runs on every path.  If the binlog
mutations map is non-empty or `countHint() != 0`, an error is logged and
`kv.ErrInvalidTxn` returned without touching the KV transaction.
Otherwise the state moves to Committing and the embedded transaction's
`Commit` is delegated to (failpoint injections are test-only and disabled
here; the nil-transaction arm is unreachable from a Valid transaction). -/
def LazyTxn.Commit (t : LazyTxn) (now : Nat) : CommitOutcome :=
  if t.mutations.length ≠ 0 ∨ t.countHint ≠ 0 then
    { err := some .invalidTxn, kvCommitIssued := false, st := t.reset }
  else
    let t1 := { t with mu := t.mu.updateState now .committing }
    { err :=
        match t1.txn with
        | some k => k.commitResult
        | none => some .invalidTxn,
      kvCommitIssued := true, st := t1.reset }

theorem LazyTxn.reset_slots (t : LazyTxn) :
    t.reset.txn = none ∧ t.reset.future = none := by
  simp [LazyTxn.reset, LazyTxn.changeToInvalid]

theorem LazyTxn.commit_st_slots (u : LazyTxn) (m : Nat) :
    (u.Commit m).st.txn = none ∧ (u.Commit m).st.future = none := by
  by_cases h : u.mutations.length ≠ 0 ∨ u.countHint ≠ 0
  · simp only [LazyTxn.Commit, if_pos h]
    exact u.reset_slots
  · simp only [LazyTxn.Commit, if_neg h]
    exact LazyTxn.reset_slots _

/-- C2: on a Valid `LazyTxn` whose mutations map is non-empty or whose
`countHint()` is non-zero, `Commit` returns the invalid-transaction error,
issues no commit on the underlying KV transaction, and still resets the
`LazyTxn` to the Invalid state (both slots empty); and (last two
conjuncts, for an arbitrary `u`) every `Commit` call, successful or
failed, leaves the `LazyTxn` reset to Invalid. -/
theorem lazyTxn_commit_precondition_violation (t u : LazyTxn) (now m : Nat)
    (hvalid : t.Valid = true) (hfut : t.future = none)
    (hbad : t.mutations ≠ [] ∨ t.countHint ≠ 0) :
    (t.Commit now).err = some Err.invalidTxn ∧
    (t.Commit now).kvCommitIssued = false ∧
    (t.Commit now).st.txn = none ∧
    (t.Commit now).st.future = none ∧
    (u.Commit m).st.txn = none ∧
    (u.Commit m).st.future = none := by
  have hcond : t.mutations.length ≠ 0 ∨ t.countHint ≠ 0 := by
    rcases hbad with h | h
    · exact Or.inl (fun hl => h (List.length_eq_zero.mp hl))
    · exact Or.inr h
  have hc := u.commit_st_slots m
  have hr := (t.reset_slots)
  simp only [LazyTxn.Commit, if_pos hcond]
  exact ⟨trivial, trivial, hr.1, hr.2, hc.1, hc.2⟩

/-- A Valid transaction with one staged (unflushed) write. -/
def exTxnStaged : LazyTxn :=
  { txn := some { bufLen := 1 }, future := none, initCnt := 0,
    stagingHandle := some 0, mutations := [], mu := {} }

/-- A Valid transaction with everything flushed, whose KV commit succeeds. -/
def exTxnFlushed : LazyTxn :=
  { txn := some { bufLen := 0 }, future := none, initCnt := 0,
    stagingHandle := some 0, mutations := [], mu := {} }

/-- C2 witness: the theorem applied to the concrete staged transaction
(and, for the reset-always conjuncts, to a successfully committing one). -/
theorem lazyTxn_commit_precondition_violation_witness :
    (exTxnStaged.Valid = true ∧ exTxnStaged.future = none ∧
      (exTxnStaged.mutations ≠ [] ∨ exTxnStaged.countHint ≠ 0)) ∧
    ((exTxnStaged.Commit 7).err = some Err.invalidTxn ∧
     (exTxnStaged.Commit 7).kvCommitIssued = false ∧
     (exTxnStaged.Commit 7).st.txn = none ∧
     (exTxnStaged.Commit 7).st.future = none ∧
     (exTxnFlushed.Commit 7).st.txn = none ∧
     (exTxnFlushed.Commit 7).st.future = none) :=
  ⟨⟨by decide, by decide, by decide⟩,
    lazyTxn_commit_precondition_violation exTxnStaged exTxnFlushed 7 7
      (by decide) (by decide) (by decide)⟩

/-- C9: `onStmtStart` with an empty digest is a complete no-op: the state
is not moved to Running, the current digest is not overwritten, and
nothing is appended to the history. -/
theorem onStmtStart_empty_digest_noop (t : LazyTxn) (now : Nat) :
    t.onStmtStart now "" = t ∧
    (t.onStmtStart now "").mu.state = t.mu.state ∧
    (t.onStmtStart now "").mu.currentSQLDigest = t.mu.currentSQLDigest ∧
    (t.onStmtStart now "").mu.allSQLDigests = t.mu.allSQLDigests := by
  have h : t.onStmtStart now "" = t := rfl
  exact ⟨h, by rw [h], by rw [h], by rw [h]⟩

theorem String.length_zero_iff (s : String) : s.length = 0 ↔ s = "" := by
  cases s with
  | mk data =>
    constructor
    · intro h
      have hd : data = [] := List.length_eq_zero.mp h
      rw [hd]
    · intro h
      rw [h]
      rfl

theorem TxnInfo.updateState_state (info : TxnInfo) (now : Nat) (s : TxnRunningState) :
    (info.updateState now s).state = s := by
  unfold TxnInfo.updateState
  split
  · next h => exact h
  · rfl

theorem TxnInfo.updateState_frame (info : TxnInfo) (now : Nat) (s : TxnRunningState) :
    (info.updateState now s).allSQLDigests = info.allSQLDigests ∧
    (info.updateState now s).currentSQLDigest = info.currentSQLDigest ∧
    (info.updateState now s).blockStartTimeValid = info.blockStartTimeValid ∧
    (info.updateState now s).blockStartTime = info.blockStartTime ∧
    (info.updateState now s).entriesCount = info.entriesCount ∧
    (info.updateState now s).entriesSize = info.entriesSize := by
  unfold TxnInfo.updateState
  split <;> exact ⟨rfl, rfl, rfl, rfl, rfl, rfl⟩

theorem LazyTxn.onStmtStart_step (t : LazyTxn) (now : Nat) (d : String)
    (hd : d ≠ "") :
    (t.onStmtStart now d).mu.allSQLDigests =
      (if t.mu.allSQLDigests.length < maxTransactionStmtHistory then
        t.mu.allSQLDigests ++ [d] else t.mu.allSQLDigests) ∧
    (t.onStmtStart now d).mu.currentSQLDigest = d ∧
    (t.onStmtStart now d).mu.state = TxnRunningState.running := by
  have hlen : ¬ d.length = 0 := fun h => hd ((String.length_zero_iff d).mp h)
  have h1 := (TxnInfo.updateState_frame t.mu now .running).1
  have h2 := TxnInfo.updateState_state t.mu now .running
  simp only [LazyTxn.onStmtStart, if_neg hlen]
  by_cases hlt : t.mu.allSQLDigests.length < maxTransactionStmtHistory
  · simp [h1, h2, hlt]
  · simp [h1, h2, hlt]

theorem runStmtStarts_digests (now : Nat) (ds : List String) :
    ∀ t : LazyTxn, (∀ d ∈ ds, d ≠ "") →
      t.mu.allSQLDigests.length ≤ maxTransactionStmtHistory →
      (runStmtStarts t now ds).mu.allSQLDigests =
        t.mu.allSQLDigests ++
          ds.take (maxTransactionStmtHistory - t.mu.allSQLDigests.length) ∧
      (runStmtStarts t now ds).mu.currentSQLDigest =
        ds.getLastD t.mu.currentSQLDigest := by
  induction ds with
  | nil =>
    intro t _ _
    constructor
    · simp [runStmtStarts]
    · simp [runStmtStarts]
  | cons d ds ih =>
    intro t hne hlen
    have hd : d ≠ "" := hne d (by simp)
    have hne2 : ∀ e ∈ ds, e ≠ "" := fun e he => hne e (by simp [he])
    obtain ⟨hs1, hs2, _⟩ := t.onStmtStart_step now d hd
    have hrun : runStmtStarts t now (d :: ds) =
        runStmtStarts (t.onStmtStart now d) now ds := rfl
    rw [hrun]
    by_cases hlt : t.mu.allSQLDigests.length < maxTransactionStmtHistory
    · have hdig : (t.onStmtStart now d).mu.allSQLDigests =
          t.mu.allSQLDigests ++ [d] := by rw [hs1, if_pos hlt]
      have hlen2 : (t.onStmtStart now d).mu.allSQLDigests.length ≤
          maxTransactionStmtHistory := by
        rw [hdig]
        simp only [List.length_append, List.length_cons, List.length_nil]
        omega
      obtain ⟨ih1, ih2⟩ := ih (t.onStmtStart now d) hne2 hlen2
      constructor
      · rw [ih1, hdig]
        simp only [List.length_append, List.length_cons, List.length_nil]
        have h50 : maxTransactionStmtHistory - t.mu.allSQLDigests.length =
            (maxTransactionStmtHistory - (t.mu.allSQLDigests.length + 1)) + 1 := by
          unfold maxTransactionStmtHistory at hlt ⊢
          omega
        rw [h50, List.take_succ_cons, List.append_assoc]
        rfl
      · rw [ih2, hs2, List.getLastD_cons]
    · have heq : t.mu.allSQLDigests.length = maxTransactionStmtHistory := by omega
      have hdig : (t.onStmtStart now d).mu.allSQLDigests =
          t.mu.allSQLDigests := by rw [hs1, if_neg hlt]
      obtain ⟨ih1, ih2⟩ := ih (t.onStmtStart now d) hne2 (by rw [hdig]; omega)
      constructor
      · rw [ih1, hdig, heq]
        simp
      · rw [ih2, hs2, List.getLastD_cons]

/-- C3: over any sequence of `onStmtStart` calls with non-empty digests
(an empty digest is a no-op, settled separately), starting from a history
within the 50-entry cap: the history becomes the old history followed by
exactly as many of the new digests, in order, as fit under the cap (so the
first 50 seen are retained and later ones dropped, never evicting older
entries); the history never exceeds 50 entries; the current digest is the
last one of the sequence (always overwritten); and (`u` conjuncts)
`onStmtEnd` clears the current digest and returns the state to Idle. -/
theorem lazyTxn_digest_history (t u : LazyTxn) (now : Nat) (ds : List String)
    (hne : ∀ d ∈ ds, d ≠ "")
    (hlen : t.mu.allSQLDigests.length ≤ maxTransactionStmtHistory) :
    (runStmtStarts t now ds).mu.allSQLDigests =
      t.mu.allSQLDigests ++
        ds.take (maxTransactionStmtHistory - t.mu.allSQLDigests.length) ∧
    (runStmtStarts t now ds).mu.allSQLDigests.length ≤ maxTransactionStmtHistory ∧
    (runStmtStarts t now ds).mu.currentSQLDigest =
      ds.getLastD t.mu.currentSQLDigest ∧
    (u.onStmtEnd now).mu.currentSQLDigest = "" ∧
    (u.onStmtEnd now).mu.state = TxnRunningState.idle := by
  obtain ⟨h1, h2⟩ := runStmtStarts_digests now ds t hne hlen
  refine ⟨h1, ?_, h2, ?_, ?_⟩
  · rw [h1]
    simp only [List.length_append, List.length_take]
    omega
  · simp only [LazyTxn.onStmtEnd]
    exact (TxnInfo.updateState_frame _ now .idle).2.1
  · simp only [LazyTxn.onStmtEnd]
    exact TxnInfo.updateState_state _ now .idle

/-- C3 witness: 60 distinct digests pushed into an empty history retain
exactly the first 50; the current digest is the last pushed; `onStmtEnd`
clears it.  `dsC3` is the list d1, d2, …, d60. -/
def dsC3 : List String := (List.range 60).map (fun i => "d" ++ toString (i + 1))

theorem lazyTxn_digest_history_witness :
    (({} : LazyTxn)).mu.allSQLDigests.length ≤ maxTransactionStmtHistory ∧
    ((runStmtStarts {} 3 dsC3).mu.allSQLDigests =
      ({} : LazyTxn).mu.allSQLDigests ++
        dsC3.take (maxTransactionStmtHistory - ({} : LazyTxn).mu.allSQLDigests.length) ∧
     (runStmtStarts {} 3 dsC3).mu.allSQLDigests.length ≤ maxTransactionStmtHistory ∧
     (runStmtStarts {} 3 dsC3).mu.currentSQLDigest =
       dsC3.getLastD ({} : LazyTxn).mu.currentSQLDigest ∧
     (({} : LazyTxn).onStmtEnd 3).mu.currentSQLDigest = "" ∧
     (({} : LazyTxn).onStmtEnd 3).mu.state = TxnRunningState.idle) :=
  ⟨by decide,
    lazyTxn_digest_history {} {} 3 dsC3 (by decide) (by decide)⟩

/-- The entry phase of `LockKeys`: before calling the underlying lock
routine, record the current state, move to LockAcquiring and set
`BlockStartTime` to now (all under lock; `beforeLockKeys` is a test-only
failpoint). -/
def LazyTxn.lockKeysEntry (t : LazyTxn) (now : Nat) : LazyTxn :=
  let info := t.mu.updateState now .lockAcquiring
  { t with mu := { info with blockStartTimeValid := true, blockStartTime := now } }

/-- The outcome of `LockKeys`: the transaction afterwards and the error
returned to the caller. -/
structure LockOutcome where
  st : LazyTxn
  err : Option Err
deriving DecidableEq, Repr

/-- `LockKeys(ctx, lockCtx, keys...)`: after the entry phase the embedded
transaction's `LockKeys` runs (modelled by `inner`, which may change the
transaction and return an error; it may block, so the restore phase sees a
later clock `now2`); then, under lock, the entry state is restored,
`BlockStartTime` is cleared, and the entry counters are refreshed from the
underlying transaction.  The nil-transaction arm is unreachable from a
Valid transaction. -/
def LazyTxn.LockKeys (t : LazyTxn) (now now2 : Nat)
    (inner : KVTxn → KVTxn × Option Err) : LockOutcome :=
  let originState := t.mu.state
  let t1 := t.lockKeysEntry now
  match t1.txn with
  | none => { st := t1, err := none }
  | some k =>
    let r := inner k
    let t2 := { t1 with txn := some r.1 }
    let info := t2.mu.updateState now2 originState
    let info := { info with
      blockStartTimeValid := false
      entriesCount := r.1.len
      entriesSize := r.1.size }
    { st := { t2 with mu := info }, err := r.2 }

/-- C4: on a `LazyTxn` holding a KV transaction, whatever the underlying
lock routine does (success or error): the entry phase sets the state to
LockAcquiring with `BlockStartTime` = now and valid; and on return the
state equals the state observed at entry, `BlockStartTime` is cleared,
the entry counters are refreshed from the underlying transaction after
the lock call, and the underlying routine's error is returned. -/
theorem lazyTxn_lockKeys_state_restore (t : LazyTxn) (k : KVTxn)
    (now now2 : Nat) (inner : KVTxn → KVTxn × Option Err)
    (hk : t.txn = some k) :
    (t.lockKeysEntry now).mu.state = TxnRunningState.lockAcquiring ∧
    (t.lockKeysEntry now).mu.blockStartTimeValid = true ∧
    (t.lockKeysEntry now).mu.blockStartTime = now ∧
    (t.LockKeys now now2 inner).st.mu.state = t.mu.state ∧
    (t.LockKeys now now2 inner).st.mu.blockStartTimeValid = false ∧
    (t.LockKeys now now2 inner).st.mu.entriesCount = (inner k).1.len ∧
    (t.LockKeys now now2 inner).st.mu.entriesSize = (inner k).1.size ∧
    (t.LockKeys now now2 inner).err = (inner k).2 := by
  have hentry : (t.lockKeysEntry now).txn = t.txn := rfl
  refine ⟨TxnInfo.updateState_state t.mu now .lockAcquiring, rfl, rfl,
    ?_, ?_, ?_, ?_, ?_⟩ <;>
      simp only [LazyTxn.LockKeys, hentry, hk] <;>
      first
        | rfl
        | exact TxnInfo.updateState_state _ now2 t.mu.state

/-- A running transaction about to lock keys. -/
def exTxnLock : LazyTxn :=
  { txn := some { bufLen := 2, len := 2, size := 20 }, future := none,
    initCnt := 2, stagingHandle := some 2, mutations := [],
    mu := { state := .running, lastStateChangeTime := 1 } }

/-- A lock routine that adds an entry and succeeds. -/
def innerLockOk : KVTxn → KVTxn × Option Err :=
  fun k => ({ k with len := k.len + 1, size := k.size + 10 }, none)

/-- C4 witness: the theorem applied to the concrete running transaction
with a successful lock routine. -/
theorem lazyTxn_lockKeys_state_restore_witness :
    exTxnLock.txn = some { bufLen := 2, len := 2, size := 20 } ∧
    ((exTxnLock.lockKeysEntry 5).mu.state = TxnRunningState.lockAcquiring ∧
     (exTxnLock.lockKeysEntry 5).mu.blockStartTimeValid = true ∧
     (exTxnLock.lockKeysEntry 5).mu.blockStartTime = 5 ∧
     (exTxnLock.LockKeys 5 9 innerLockOk).st.mu.state = exTxnLock.mu.state ∧
     (exTxnLock.LockKeys 5 9 innerLockOk).st.mu.blockStartTimeValid = false ∧
     (exTxnLock.LockKeys 5 9 innerLockOk).st.mu.entriesCount =
       (innerLockOk { bufLen := 2, len := 2, size := 20 }).1.len ∧
     (exTxnLock.LockKeys 5 9 innerLockOk).st.mu.entriesSize =
       (innerLockOk { bufLen := 2, len := 2, size := 20 }).1.size ∧
     (exTxnLock.LockKeys 5 9 innerLockOk).err =
       (innerLockOk { bufLen := 2, len := 2, size := 20 }).2) :=
  ⟨by decide,
    lazyTxn_lockKeys_state_restore exTxnLock _ 5 9 innerLockOk (by decide)⟩

/-- `resetTxnInfo` (called under lock): the histogram sample and recorder
callback are external effects (omitted); the TxnInfo is replaced wholesale
with the given fields and a fresh state-change time. -/
def TxnInfo.resetFields (startTS : Nat) (state : TxnRunningState)
    (entriesCount entriesSize : Nat) (currentSQLDigest : String)
    (allSQLDigests : List String) (now : Nat) : TxnInfo :=
  { startTS := startTS, state := state, lastStateChangeTime := now,
    entriesCount := entriesCount, entriesSize := entriesSize,
    currentSQLDigest := currentSQLDigest, allSQLDigests := allSQLDigests }

/-- `changePendingToValid(ctx)`: no future set is an error; otherwise the
future is consumed; a failed wait clears the transaction slot and surfaces
the error; a successful wait installs the KV transaction, opens the
statement buffer, and resets the TxnInfo keeping the digests recorded
while pending. -/
def LazyTxn.changePendingToValid (t : LazyTxn) (now : Nat) :
    LazyTxn × Option Err :=
  match t.future with
  | none => (t, some (.other "transaction future is not set"))
  | some r =>
    let t1 := { t with future := none }
    match r with
    | .error e => ({ t1 with txn := none }, some e)
    | .ok k =>
      let t2 := { t1 with txn := some k }
      let t3 := t2.initStmtBuf
      let info := TxnInfo.resetFields k.startTS .idle t3.txnLen t3.txnSize
        t3.mu.currentSQLDigest t3.mu.allSQLDigests now
      ({ t3 with mu := info }, none)

/-- The outcome of `Wait`: the transaction afterwards and the error. -/
structure WaitOutcome where
  st : LazyTxn
  err : Option Err
deriving DecidableEq, Repr

/-- `Wait(ctx, sctx)`: neither valid nor pending returns
`kv.ErrInvalidTxn` with the receiver unchanged; a pending transaction is
promoted (on failure it is cleaned up; zeroing the session context's
`TxnCtx.StartTS` is an effect on the session variables, outside this
struct); a valid transaction is returned as is. -/
def LazyTxn.Wait (t : LazyTxn) (now : Nat) : WaitOutcome :=
  if t.validOrPending = false then { st := t, err := some .invalidTxn }
  else if t.pending = true then
    let r := t.changePendingToValid now
    match r.2 with
    | some e => { st := r.1.cleanup, err := some e }
    | none => { st := r.1, err := none }
  else { st := t, err := none }

/-- C10: on an Invalid `LazyTxn` (both slots empty), `Wait` returns
`kv.ErrInvalidTxn` and leaves the object — its TxnInfo state, staging
handle, and mutations — unchanged; on a Valid `LazyTxn` (conjuncts about
`v`), `Wait` returns successfully without modifying the transaction. -/
theorem lazyTxn_wait_invalid_and_valid (t v : LazyTxn) (k : KVTxn)
    (now m : Nat)
    (hinv1 : t.txn = none) (hinv2 : t.future = none)
    (hv1 : v.txn = some k) (hv2 : k.valid = true) (hv3 : v.future = none) :
    (t.Wait now).err = some Err.invalidTxn ∧
    (t.Wait now).st = t ∧
    (v.Wait m).err = none ∧
    (v.Wait m).st = v := by
  have hvp : t.validOrPending = false := by
    simp [LazyTxn.validOrPending, LazyTxn.Valid, hinv1, hinv2]
  have hvp2 : v.validOrPending = true := by
    simp [LazyTxn.validOrPending, LazyTxn.Valid, hv1, hv2]
  have hpend : v.pending = false := by
    simp [LazyTxn.pending, hv1]
  refine ⟨?_, ?_, ?_, ?_⟩ <;>
    simp [LazyTxn.Wait, hvp, hvp2, hpend]

/-- A Valid transaction for the C10 witness. -/
def exTxnValidC10 : LazyTxn :=
  { txn := some {}, future := none, initCnt := 0, stagingHandle := some 0,
    mutations := [], mu := { state := .idle } }

/-- C10 witness: the theorem applied to the default (Invalid) `LazyTxn`
and to the concrete Valid one. -/
theorem lazyTxn_wait_invalid_and_valid_witness :
    (({} : LazyTxn).txn = none ∧ ({} : LazyTxn).future = none ∧
      exTxnValidC10.txn = some {} ∧ ({} : KVTxn).valid = true ∧
      exTxnValidC10.future = none) ∧
    ((({} : LazyTxn).Wait 2).err = some Err.invalidTxn ∧
     (({} : LazyTxn).Wait 2).st = {} ∧
     (exTxnValidC10.Wait 2).err = none ∧
     (exTxnValidC10.Wait 2).st = exTxnValidC10) :=
  ⟨⟨by decide, by decide, by decide, by decide, by decide⟩,
    lazyTxn_wait_invalid_and_valid {} exTxnValidC10 {} 2 2
      (by decide) (by decide) (by decide) (by decide) (by decide)⟩

/-! ## Pessimistic lock selection (`keyNeedToLock`, `KeysNeedToLock`)

The tablecodec predicates live outside this repository; they are passed in
as an abstract record of byte-level predicates.  Keys and values are byte
lists. -/

/-- The two `kv.KeyFlags` bits `keyNeedToLock` inspects. -/
structure KeyFlags where
  presumeKeyNotExists : Bool := false
  needLocked : Bool := false
deriving DecidableEq, Repr

/-- The tablecodec predicates used by `keyNeedToLock`:
`IsRecordKey`, `IsIndexKey`, `IsUntouchedIndexKValue`, `IndexKVIsUnique`. -/
structure Tablecodec where
  isRecordKey : List Nat → Bool
  isIndexKey : List Nat → Bool
  isUntouchedIndexKValue : List Nat → List Nat → Bool
  indexKVIsUnique : List Nat → Bool

/-- `tablecodec.TablePrefix()` is the single byte of the character t. -/
def tablePfx : List Nat := [116]

/-- `bytes.HasPrefix(k, pre)`. -/
def bytesHasPfx (k pre : List Nat) : Bool := k.take pre.length == pre

/-- `keyNeedToLock(k, v, flags)`, branch for branch from the source:
non-table (meta) keys always lock; then the PresumeKeyNotExists flag;
then deletions (empty value) lock iff NeedLocked or a record key; then
untouched index writes never lock; then non-index keys lock; finally
index keys lock iff the value marks a unique index. -/
def keyNeedToLock (tc : Tablecodec) (k v : List Nat) (flags : KeyFlags) : Bool :=
  let isTableKey := bytesHasPfx k tablePfx
  if !isTableKey then
    true
  else if flags.presumeKeyNotExists then
    true
  else if v.length = 0 then
    flags.needLocked || tc.isRecordKey k
  else if tc.isUntouchedIndexKValue k v then
    false
  else if !tc.isIndexKey k then
    true
  else
    tc.indexKVIsUnique v

/-- The selection rule as the claim words it: every non-table key; a table
key iff PresumeKeyNotExists, or an empty value with NeedLocked or a record
key, or — except for untouched index writes, which are never selected — a
non-index key with a non-empty value or a unique-index key. -/
def keyNeedToLockSpec (tc : Tablecodec) (k v : List Nat) (flags : KeyFlags) : Bool :=
  !(bytesHasPfx k tablePfx)
  || flags.presumeKeyNotExists
  || (v.length == 0 && (flags.needLocked || tc.isRecordKey k))
  || (!(tc.isUntouchedIndexKValue k v) &&
       ((!(tc.isIndexKey k) && !(v.length == 0)) ||
        (tc.isIndexKey k && tc.indexKVIsUnique v)))

/-- An entry of the staging frame as `InspectStage` visits it. -/
structure KVEntry where
  key : List Nat
  flags : KeyFlags
  value : List Nat
deriving DecidableEq, Repr

/-- `KeysNeedToLock()`: nil with no open staging handle; otherwise the
keys of the staged entries satisfying `keyNeedToLock`, in visit order
(`staged` is the content of the staging frame, which the struct model
does not carry). -/
def LazyTxn.KeysNeedToLock (t : LazyTxn) (tc : Tablecodec)
    (staged : List KVEntry) : List (List Nat) :=
  match t.stagingHandle with
  | none => []
  | some _ =>
    ((staged.filter (fun e => keyNeedToLock tc e.key e.value e.flags)).map
      (fun e => e.key))

/-- C6: provided `IndexKVIsUnique` never holds of an empty value (true of
the real tablecodec, where a unique index value carries an encoded
handle), `keyNeedToLock` selects a key exactly according to the claim's
rule, and `KeysNeedToLock` keeps exactly the staged keys selected by that
rule. -/
theorem keysNeedToLock_selection_rule (tc : Tablecodec)
    (hq : ∀ w, tc.indexKVIsUnique w = true → w ≠ [])
    (k v : List Nat) (flags : KeyFlags) (t : LazyTxn) (h0 : Nat)
    (staged : List KVEntry) (hstage : t.stagingHandle = some h0) :
    keyNeedToLock tc k v flags = keyNeedToLockSpec tc k v flags ∧
    t.KeysNeedToLock tc staged =
      ((staged.filter (fun e => keyNeedToLockSpec tc e.key e.value e.flags)).map
        (fun e => e.key)) := by
  have hpt : ∀ k2 v2 f2, keyNeedToLock tc k2 v2 f2 = keyNeedToLockSpec tc k2 v2 f2 := by
    intro k2 v2 f2
    unfold keyNeedToLock keyNeedToLockSpec
    by_cases ht : bytesHasPfx k2 tablePfx
    case neg => simp [ht]
    case pos =>
    by_cases hp : f2.presumeKeyNotExists
    case pos => simp [ht, hp]
    case neg =>
    by_cases he : v2.length = 0
    case pos =>
      have hv2 : v2 = [] := List.length_eq_zero.mp he
      have hu : tc.indexKVIsUnique v2 = false := by
        cases hq2 : tc.indexKVIsUnique v2
        · rfl
        · exact absurd hv2 (hq v2 hq2)
      simp [ht, hp, he, hu]
    case neg =>
    by_cases hun : tc.isUntouchedIndexKValue k2 v2
    case pos => simp [ht, hp, he, hun]
    case neg =>
    by_cases hi : tc.isIndexKey k2
    case pos => simp [ht, hp, he, hun, hi]
    case neg => simp [ht, hp, he, hun, hi]
  refine ⟨hpt k v flags, ?_⟩
  simp only [LazyTxn.KeysNeedToLock, hstage]
  congr 1
  apply List.filter_congr
  intro e _
  exact hpt e.key e.value e.flags

/-- A concrete tablecodec for the witness: record keys start t-r, index
keys start t-i, a unique index value is exactly 8 bytes, and an untouched
index write is an index key whose value ends in byte 49. -/
def exTc : Tablecodec :=
  { isRecordKey := fun k => bytesHasPfx k [116, 114]
    isIndexKey := fun k => bytesHasPfx k [116, 105]
    isUntouchedIndexKValue := fun k v =>
      bytesHasPfx k [116, 105] && v.getLastD 0 == 49
    indexKVIsUnique := fun v => v.length == 8 }

theorem exTc_unique_nonempty : ∀ w, exTc.indexKVIsUnique w = true → w ≠ [] := by
  intro w h hw
  rw [hw] at h
  exact absurd h (by decide)

/-- A staged frame: a record-key put, a non-unique index write, and a
meta key. -/
def exStagedC6 : List KVEntry :=
  [ { key := [116, 114, 1], flags := {}, value := [7] },
    { key := [116, 105, 2], flags := {}, value := [1, 2, 3] },
    { key := [109, 1], flags := {}, value := [] } ]

/-- C6 witness: the theorem applied to the concrete tablecodec, a record
key with a deletion value, and the concrete staged frame. -/
theorem keysNeedToLock_selection_rule_witness :
    exTxnStaged.stagingHandle = some 0 ∧
    (keyNeedToLock exTc [116, 114, 9] [] { needLocked := false } =
       keyNeedToLockSpec exTc [116, 114, 9] [] { needLocked := false } ∧
     exTxnStaged.KeysNeedToLock exTc exStagedC6 =
       ((exStagedC6.filter
           (fun e => keyNeedToLockSpec exTc e.key e.value e.flags)).map
         (fun e => e.key))) :=
  ⟨by decide,
    keysNeedToLock_selection_rule exTc exTc_unique_nonempty
      [116, 114, 9] [] { needLocked := false } exTxnStaged 0 exStagedC6
      (by decide)⟩

/-! ## `txnFuture.wait` (store-dependent retry policy) -/

/-- `txnFuture`: the one-shot timestamp future's outcome, and the store's
`Begin` entry points — with a pre-fetched start timestamp, and without
one (the `txnScope` option is carried by both and elided). -/
structure TxnFuture where
  futureResult : Except Err Nat
  beginWithTS : Nat → Except Err KVTxn
  beginNoTS : Except Err KVTxn

/-- `txnFuture.wait()`: on a successful future, begin with the fetched
timestamp; on failure, the in-memory store ("unistore") surfaces the
error with no transaction, and any other store retries `Begin` without a
pre-fetched timestamp.  `storeCfg` is `config.GetGlobalConfig().Store`. -/
def txnFutureWait (storeCfg : String) (tf : TxnFuture) : Except Err KVTxn :=
  match tf.futureResult with
  | .ok startTS => tf.beginWithTS startTS
  | .error e =>
    if storeCfg = "unistore" then .error e
    else tf.beginNoTS

/-- C7: when the one-shot timestamp future fails, `wait` surfaces the
error (with no KV transaction) on the in-memory "unistore" store, and on
any other store returns the result of `Begin` without a pre-fetched start
timestamp. -/
theorem txnFuture_wait_failure_policy (tf : TxnFuture) (e : Err)
    (storeCfg : String) (hf : tf.futureResult = .error e) :
    txnFutureWait "unistore" tf = .error e ∧
    (storeCfg ≠ "unistore" → txnFutureWait storeCfg tf = tf.beginNoTS) := by
  constructor
  · simp [txnFutureWait, hf]
  · intro hs
    simp [txnFutureWait, hf, hs]

/-- A future that fails, over a store whose plain `Begin` succeeds. -/
def exTfC7 : TxnFuture :=
  { futureResult := .error .retryable
    beginWithTS := fun ts => .ok { startTS := ts }
    beginNoTS := .ok { startTS := 42 } }

/-- C7 witness: the theorem applied to the concrete failed future and the
"tikv" store configuration. -/
theorem txnFuture_wait_failure_policy_witness :
    exTfC7.futureResult = .error Err.retryable ∧
    (txnFutureWait "unistore" exTfC7 = .error Err.retryable ∧
     ("tikv" ≠ "unistore" → txnFutureWait "tikv" exTfC7 = exTfC7.beginNoTS)) :=
  ⟨rfl, txnFuture_wait_failure_policy exTfC7 Err.retryable "tikv" rfl⟩

/-! ## DDL job selection (`getJobSQL` and `ddl.getJob`)

A row of `mysql.tidb_ddl_job` as the selection query reads it.  The query
semantics (grouping, filtering, ORDER BY) are embedded as list operations;
the decoded `job_meta` is the row itself (decoding is external and
lossless for the fields the dispatcher inspects). -/

structure JobRow where
  jobId : Int
  schemaIds : String
  tableIds : String
  isReorg : Bool
  processing : Bool
deriving DecidableEq, Repr

/-- `job_id in (select min(job_id) from ... group by schema_ids, table_ids)`:
the row's id is minimal among rows with the same canonicalized ID strings. -/
def isGroupMin (table : List JobRow) (r : JobRow) : Bool :=
  table.all fun q =>
    !((q.schemaIds == r.schemaIds) && (q.tableIds == r.tableIds)) ||
      decide (r.jobId ≤ q.jobId)

/-- The WHERE clause of `getJobSQL`: group-minimal, reorg class matching
`tp`, and not in the in-memory exclusion set (`excludeJobIDs`). -/
def rowKeep (table : List JobRow) (tp : Bool) (exclude : List Int)
    (r : JobRow) : Bool :=
  isGroupMin table r && (r.isReorg == tp) && !(exclude.contains r.jobId)

/-- `order by processing desc, job_id`: processing rows first, then by
ascending job id. -/
def rowBefore (a b : JobRow) : Prop :=
  (a.processing = true ∧ b.processing = false) ∨
  (a.processing = b.processing ∧ a.jobId ≤ b.jobId)

instance : DecidableRel rowBefore := fun a b => by unfold rowBefore; infer_instance

instance : IsTotal JobRow rowBefore :=
  ⟨fun a b => by
    unfold rowBefore
    cases ha : a.processing <;> cases hb : b.processing <;> simp [ha, hb] <;>
      exact Int.le_total a.jobId b.jobId⟩

instance : IsTrans JobRow rowBefore :=
  ⟨fun a b c hab hbc => by
    unfold rowBefore at hab hbc ⊢
    rcases hab with ⟨ha1, ha2⟩ | ⟨ha1, ha2⟩ <;>
      rcases hbc with ⟨hb1, hb2⟩ | ⟨hb1, hb2⟩
    · rw [ha2] at hb1
      cases hb1
    · left
      exact ⟨ha1, by rw [← hb1]; exact ha2⟩
    · left
      exact ⟨ha1.trans hb1, hb2⟩
    · right
      exact ⟨ha1.trans hb1, le_trans ha2 hb2⟩⟩

/-- The candidate list `getJobSQL` returns: filtered rows in the query's
ORDER BY order. -/
def selectCandidates (table : List JobRow) (tp : Bool) (exclude : List Int) :
    List JobRow :=
  List.insertionSort rowBefore (table.filter (rowKeep table tp exclude))

/-- The observable outcome of `ddl.getJob`: the returned job (row), the
error, the job ids passed to the runnability filter, and the job ids on
which `markJobProcessing` was invoked. -/
structure GetJobOut where
  found : Option JobRow
  err : Option Err
  filtered : List Int
  marked : List Int
deriving DecidableEq, Repr

/-- The row loop of `ddl.getJob`: a row already marked processing is
returned immediately; otherwise the runnability filter runs — an error
aborts, a runnable row is marked processing and returned, a non-runnable
row is skipped. -/
def getJobLoop (runnable : JobRow → Except Err Bool) :
    List JobRow → GetJobOut
  | [] => { found := none, err := none, filtered := [], marked := [] }
  | r :: rs =>
    if r.processing then
      { found := some r, err := none, filtered := [], marked := [] }
    else
      match runnable r with
      | .error e =>
        { found := none, err := some e, filtered := [r.jobId], marked := [] }
      | .ok true =>
        { found := some r, err := none, filtered := [r.jobId],
          marked := [r.jobId] }
      | .ok false =>
        let o := getJobLoop runnable rs
        { o with filtered := r.jobId :: o.filtered }

/-- `ddl.getJob`: run the loop over the candidate list. -/
def getJob (table : List JobRow) (tp : Bool) (exclude : List Int)
    (runnable : JobRow → Except Err Bool) : GetJobOut :=
  getJobLoop runnable (selectCandidates table tp exclude)

/-- C5: the candidate list is ordered with processing rows first and
otherwise by ascending job id; and whenever some candidate is already
marked processing, `getJob` returns the head of the list — a processing
row — immediately, consulting the runnability filter on no row and
marking no row. -/
theorem getJob_processing_first (table : List JobRow) (tp : Bool)
    (exclude : List Int) (runnable : JobRow → Except Err Bool)
    (hex : ∃ r ∈ selectCandidates table tp exclude, r.processing = true) :
    List.Sorted rowBefore (selectCandidates table tp exclude) ∧
    (selectCandidates table tp exclude).head?.map JobRow.processing =
      some true ∧
    getJob table tp exclude runnable =
      { found := (selectCandidates table tp exclude).head?, err := none,
        filtered := [], marked := [] } := by
  have hsorted : List.Sorted rowBefore (selectCandidates table tp exclude) := by
    unfold selectCandidates
    exact List.sorted_insertionSort _ _
  refine ⟨hsorted, ?_⟩
  rcases hcse : selectCandidates table tp exclude with _ | ⟨r0, rs⟩
  · rw [hcse] at hex
    simp at hex
  · rw [hcse] at hsorted hex
    have hr0 : r0.processing = true := by
      rcases hex with ⟨r, hr, hrp⟩
      rcases List.mem_cons.mp hr with he | hm
      · rw [← he]
        exact hrp
      · cases h0 : r0.processing
        · have hrel : rowBefore r0 r := (List.sorted_cons.mp hsorted).1 r hm
          rcases hrel with ⟨h1, _⟩ | ⟨h1, _⟩
          · rw [h0] at h1
            cases h1
          · rw [h0] at h1
            rw [← h1] at hrp
            cases hrp
        · rfl
    constructor
    · simp [hr0]
    · unfold getJob
      rw [hcse]
      simp [getJobLoop, hr0]

/-- Concrete rows for the C5 witness: job 1 is already processing, job 2
is not; both are group-minimal general jobs. -/
def tableC5 : List JobRow :=
  [ { jobId := 2, schemaIds := "2", tableIds := "102", isReorg := false,
      processing := false },
    { jobId := 1, schemaIds := "1", tableIds := "101", isReorg := false,
      processing := true } ]

/-- C5 witness: the theorem applied to the concrete table with a
runnability filter that would reject everything (it is never consulted). -/
theorem getJob_processing_first_witness :
    List.Sorted rowBefore (selectCandidates tableC5 false []) ∧
    (selectCandidates tableC5 false []).head?.map JobRow.processing =
      some true ∧
    getJob tableC5 false [] (fun _ => .ok false) =
      { found := (selectCandidates tableC5 false []).head?, err := none,
        filtered := [], marked := [] } :=
  getJob_processing_first tableC5 false [] (fun _ => .ok false) (by decide)


/-! ## Migration bridges (`runInTxn`, `MoveJobFromQueue2Table`,
`MoveJobFromTable2Queue` in ddl/job_table.go)

The bridge bodies are embedded from the source, control branch by control
branch.  Their leaf callees terminate outside this repository — the meta
queue operations (`GetAllDDLJobsInQueue`, `GetDDLReorgHandle`,
`EnQueueDDLJobNoUpdate`, `ClearALLDDLJob`, `ClearAllDDLReorgHandle`,
`SetConcurrentDDL`, `UpdateDDLReorgHandle`, `IsConcurrentDDL`,
`GetSystemDBID`) and the SQL statements issued through `sess.execute`
(which is where `insertDDLJobs2Table`, `initDDLReorgHandle`,
`getJobsBySQL` and the two deletes bottom out) — so those callees are
explicit parameters: state readers and state transformers over the
transaction's staged view `σ`, each free to fail. -/

/-- The legacy queue worker types iterated by `MoveJobFromQueue2Table`,
in the source's order addIdxWorker then generalWorker. -/
inductive WorkerType where
  | addIdxWorker
  | generalWorker
deriving DecidableEq, Repr

/-- The legacy KV job-list keys used by `MoveJobFromTable2Queue`. -/
inductive JobListKey where
  | defaultKey
  | addIdxKey
deriving DecidableEq, Repr

/-- A DDL reorg progress record (`tidb_ddl_reorg` row / KV reorg handle):
element id and type key, start/end keys, physical table id, job id. -/
structure ReorgRec where
  jobID : Int
  eleID : Int
  eleType : List Nat
  startKey : List Nat
  endKey : List Nat
  physicalID : Int
deriving DecidableEq, Repr

/-- Modelled from the spec: the internal SQL session's transaction
primitives `begin` / `commit` / `rollback` are session methods outside
this repository; per the spec the bridges are transactional — a rollback
discards every staged change, a successful commit persists them
atomically.  `durable` is the persistent state; `beginErr` / `commitErr`
inject the primitives' own failures. -/
structure TxnSession (σ : Type) where
  durable : σ
  beginErr : Option Err := none
  commitErr : Option Err := none

/-- `runInTxn(se, f)`: a failing `begin` surfaces its error; a failing
body rolls the transaction back (the durable state is unchanged) and
surfaces the body's error; otherwise the commit outcome decides whether
the staged state becomes durable. -/
def runInTxn {σ : Type} (se : TxnSession σ) (f : σ → Except Err σ) :
    σ × Option Err :=
  match se.beginErr with
  | some e => (se.durable, some e)
  | none =>
    match f se.durable with
    | .error e => (se.durable, some e)
    | .ok staged =>
      match se.commitErr with
      | some e => (se.durable, some e)
      | none => (staged, none)

/-- The external callees of `MoveJobFromQueue2Table`'s body, over the
transaction's staged state `σ`: `se.txn()` (its possible failure),
`t.IsConcurrentDDL()` (a (value, error) pair: the error case carries no
value, Go's zero value being false), `t.GetSystemDBID()`, the per-queue
`t.GetAllDDLJobsInQueue()`, `insertDDLJobs2Table` (one insert, as the
body calls it job by job), `t.GetDDLReorgHandle` (failing with
`reorgElementNotExist` when there is no handle), `initDDLReorgHandle`,
`t.ClearALLDDLJob()`, `t.ClearAllDDLReorgHandle()` and
`t.SetConcurrentDDL`. -/
structure Queue2TableEnv (σ : Type) where
  txnErr : Option Err := none
  isConcurrentDDL : σ → Except Err Bool
  getSystemDBID : σ → Except Err Int
  getAllDDLJobsInQueue : WorkerType → σ → Except Err (List Job)
  insertDDLJobs2Table : Job → σ → Except Err σ
  getDDLReorgHandle : Job → σ → Except Err ReorgRec
  initDDLReorgHandle : Job → ReorgRec → σ → Except Err σ
  clearALLDDLJob : σ → Except Err σ
  clearAllDDLReorgHandle : σ → Except Err σ
  setConcurrentDDL : Bool → σ → Except Err σ

/-- The inner job loop of `MoveJobFromQueue2Table` for one queue: in
bootstrap, jobs of the system DB are skipped; the job row is inserted;
the general queue carries no reorg info, so its jobs stop there; for the
add-index queue the reorg handle is copied — a missing handle
(`ErrDDLReorgElementNotExist`) is skipped, any other lookup failure or a
failing step aborts with its error. -/
def queue2TableJobs {σ : Type} (env : Queue2TableEnv σ) (inBootstrap : Bool)
    (systemDBID : Int) (tp : WorkerType) : List Job → σ → Except Err σ
  | [], s => .ok s
  | job :: rest, s =>
    if inBootstrap && (job.schemaID == systemDBID) then
      queue2TableJobs env inBootstrap systemDBID tp rest s
    else
      match env.insertDDLJobs2Table job s with
      | .error e => .error e
      | .ok s1 =>
        if tp = WorkerType.generalWorker then
          queue2TableJobs env inBootstrap systemDBID tp rest s1
        else
          match env.getDDLReorgHandle job s1 with
          | .error e =>
            if e = Err.reorgElementNotExist then
              queue2TableJobs env inBootstrap systemDBID tp rest s1
            else .error e
          | .ok h =>
            match env.initDDLReorgHandle job h s1 with
            | .error e => .error e
            | .ok s2 => queue2TableJobs env inBootstrap systemDBID tp rest s2

/-- The outer loop of `MoveJobFromQueue2Table` over the two legacy
queues: read each queue's jobs, then run the job loop. -/
def queue2TableQueues {σ : Type} (env : Queue2TableEnv σ)
    (inBootstrap : Bool) (systemDBID : Int) :
    List WorkerType → σ → Except Err σ
  | [], s => .ok s
  | tp :: rest, s =>
    match env.getAllDDLJobsInQueue tp s with
    | .error e => .error e
    | .ok jobs =>
      match queue2TableJobs env inBootstrap systemDBID tp jobs s with
      | .error e => .error e
      | .ok s1 => queue2TableQueues env inBootstrap systemDBID rest s1

/-- The body of `MoveJobFromQueue2Table` (the closure handed to
`runInTxn`), branch for branch from the source: a failing `se.txn()`
aborts; then `IsConcurrentDDL` — outside bootstrap, an already-set flag
returns nil early (committing with no changes) and a lookup error is
surfaced, while in bootstrap both are swallowed and the run continues; a
failing `GetSystemDBID` aborts; then both queues are migrated, the
legacy queues and reorg handles cleared, and the concurrent-DDL flag
set. -/
def moveJobFromQueue2TableBody {σ : Type} (env : Queue2TableEnv σ)
    (inBootstrap : Bool) (s : σ) : Except Err σ :=
  match env.txnErr with
  | some e => .error e
  | none =>
    let conc := env.isConcurrentDDL s
    let concVal := match conc with | .ok b => b | .error _ => false
    let concErr := match conc with | .error e => some e | .ok _ => none
    if !inBootstrap && (concVal || concErr.isSome) then
      match concErr with
      | some e => .error e
      | none => .ok s
    else
      match env.getSystemDBID s with
      | .error e => .error e
      | .ok systemDBID =>
        match queue2TableQueues env inBootstrap systemDBID
            [WorkerType.addIdxWorker, WorkerType.generalWorker] s with
        | .error e => .error e
        | .ok s1 =>
          match env.clearALLDDLJob s1 with
          | .error e => .error e
          | .ok s2 =>
            match env.clearAllDDLReorgHandle s2 with
            | .error e => .error e
            | .ok s3 => env.setConcurrentDDL true s3

/-- The external callees of `MoveJobFromTable2Queue`'s body:
`se.txn()`, `t.IsConcurrentDDL()`, `getJobsBySQL` (the ordered read of
`tidb_ddl_job`), `job.MayNeedReorg()`, `t.EnQueueDDLJobNoUpdate`, the
read of `tidb_ddl_reorg`, `t.UpdateDDLReorgHandle`, the two cleanup
deletes, and `t.SetConcurrentDDL`. -/
structure Table2QueueEnv (σ : Type) where
  txnErr : Option Err := none
  isConcurrentDDL : σ → Except Err Bool
  getJobsBySQL : σ → Except Err (List Job)
  mayNeedReorg : Job → Bool
  enQueueDDLJobNoUpdate : Job → JobListKey → σ → Except Err σ
  getReorgRows : σ → Except Err (List ReorgRec)
  updateDDLReorgHandle : ReorgRec → σ → Except Err σ
  deleteDDLJobTable : σ → Except Err σ
  deleteDDLReorgTable : σ → Except Err σ
  setConcurrentDDL : Bool → σ → Except Err σ

/-- The job loop of `MoveJobFromTable2Queue`: each row is enqueued into
the default list key, or the add-index key when the job may need reorg;
a failing enqueue aborts with its error. -/
def table2QueueJobs {σ : Type} (env : Table2QueueEnv σ) :
    List Job → σ → Except Err σ
  | [], s => .ok s
  | job :: rest, s =>
    let jobListKey :=
      if env.mayNeedReorg job then JobListKey.addIdxKey
      else JobListKey.defaultKey
    match env.enQueueDDLJobNoUpdate job jobListKey s with
    | .error e => .error e
    | .ok s1 => table2QueueJobs env rest s1

/-- The reorg-handle loop of `MoveJobFromTable2Queue`: each
`tidb_ddl_reorg` row is written back as a KV reorg handle. -/
def table2QueueHandles {σ : Type} (env : Table2QueueEnv σ) :
    List ReorgRec → σ → Except Err σ
  | [], s => .ok s
  | row :: rest, s =>
    match env.updateDDLReorgHandle row s with
    | .error e => .error e
    | .ok s1 => table2QueueHandles env rest s1

/-- The body of `MoveJobFromTable2Queue`, branch for branch from the
source: a failing `se.txn()` aborts; `IsConcurrentDDL` — a cleared flag
returns nil early (nothing to migrate), a lookup error is surfaced; the
table rows are read in job-id order and enqueued; the reorg rows are
copied back; both tables are cleaned up; the flag is cleared. -/
def moveJobFromTable2QueueBody {σ : Type} (env : Table2QueueEnv σ)
    (s : σ) : Except Err σ :=
  match env.txnErr with
  | some e => .error e
  | none =>
    let conc := env.isConcurrentDDL s
    let concVal := match conc with | .ok b => b | .error _ => false
    let concErr := match conc with | .error e => some e | .ok _ => none
    if !concVal || concErr.isSome then
      match concErr with
      | some e => .error e
      | none => .ok s
    else
      match env.getJobsBySQL s with
      | .error e => .error e
      | .ok jobs =>
        match table2QueueJobs env jobs s with
        | .error e => .error e
        | .ok s1 =>
          match env.getReorgRows s1 with
          | .error e => .error e
          | .ok rows =>
            match table2QueueHandles env rows s1 with
            | .error e => .error e
            | .ok s2 =>
              match env.deleteDDLJobTable s2 with
              | .error e => .error e
              | .ok s3 =>
                match env.deleteDDLReorgTable s3 with
                | .error e => .error e
                | .ok s4 => env.setConcurrentDDL false s4

/-- `ddl.MoveJobFromQueue2Table`: the body runs under `runInTxn` in one
transaction.  (The session-pool checkout preceding the transaction can
fail too; that path performs no writes and is outside the transactional
claim.) -/
def MoveJobFromQueue2Table {σ : Type} (se : TxnSession σ)
    (env : Queue2TableEnv σ) (inBootstrap : Bool) : σ × Option Err :=
  runInTxn se (moveJobFromQueue2TableBody env inBootstrap)

/-- `ddl.MoveJobFromTable2Queue`: the body runs under `runInTxn` in one
transaction. -/
def MoveJobFromTable2Queue {σ : Type} (se : TxnSession σ)
    (env : Table2QueueEnv σ) : σ × Option Err :=
  runInTxn se (moveJobFromTable2QueueBody env)

/-- C8: each migration bridge executes entirely inside a single
transaction: whenever its body — with the source's own control flow,
including the bootstrap swallow of the `IsConcurrentDDL` error, the
early nil-return when there is nothing to migrate, and the skip of
missing reorg handles — returns an error from any step, the transaction
is rolled back (the durable state is exactly what it was: no partial
inserts, queue mutations, deletions, or flag changes persist) and the
error is surfaced; only when the body succeeds is the staged state
committed. -/
theorem migration_bridge_atomic {σ : Type} (se : TxnSession σ)
    (envQ : Queue2TableEnv σ) (envT : Table2QueueEnv σ) (inBootstrap : Bool)
    (e1 e2 : Err) (s1 s2 : σ)
    (hbegin : se.beginErr = none) (hcommit : se.commitErr = none) :
    (moveJobFromQueue2TableBody envQ inBootstrap se.durable = .error e1 →
      MoveJobFromQueue2Table se envQ inBootstrap = (se.durable, some e1)) ∧
    (moveJobFromQueue2TableBody envQ inBootstrap se.durable = .ok s1 →
      MoveJobFromQueue2Table se envQ inBootstrap = (s1, none)) ∧
    (moveJobFromTable2QueueBody envT se.durable = .error e2 →
      MoveJobFromTable2Queue se envT = (se.durable, some e2)) ∧
    (moveJobFromTable2QueueBody envT se.durable = .ok s2 →
      MoveJobFromTable2Queue se envT = (s2, none)) := by
  refine ⟨?_, ?_, ?_, ?_⟩ <;> intro h
  · simp [MoveJobFromQueue2Table, runInTxn, hbegin, h]
  · simp [MoveJobFromQueue2Table, runInTxn, hbegin, h, hcommit]
  · simp [MoveJobFromTable2Queue, runInTxn, hbegin, h]
  · simp [MoveJobFromTable2Queue, runInTxn, hbegin, h, hcommit]

/-- A session over a durable Nat change counter. -/
def seC8 : TxnSession Nat := { durable := 0 }

/-- An add-index job sitting in the legacy add-index queue. -/
def jobQ1 : Job :=
  { id := 1, jobType := .addIndex, schemaID := 5, tableID := 31,
    ctxSchemaIDs := [], ctxTableIDs := [] }

/-- A general job sitting in the legacy general queue. -/
def jobQ2 : Job :=
  { id := 2, jobType := .createTable, schemaID := 5, tableID := 32,
    ctxSchemaIDs := [], ctxTableIDs := [] }

/-- A Queue2Table run whose first insert succeeds (staging one change),
whose reorg-handle lookup finds nothing (the skipped
`ErrDDLReorgElementNotExist` path), and whose second insert fails. -/
def envQbadC8 : Queue2TableEnv Nat :=
  { txnErr := none
    isConcurrentDDL := fun _ => .ok false
    getSystemDBID := fun _ => .ok 99
    getAllDDLJobsInQueue := fun tp _ =>
      match tp with
      | .addIdxWorker => .ok [jobQ1]
      | .generalWorker => .ok [jobQ2]
    insertDDLJobs2Table := fun job s =>
      if job.id == 2 then .error .retryable else .ok (s + 1)
    getDDLReorgHandle := fun _ _ => .error .reorgElementNotExist
    initDDLReorgHandle := fun _ _ s => .ok (s + 1)
    clearALLDDLJob := fun s => .ok (s + 1)
    clearAllDDLReorgHandle := fun s => .ok (s + 1)
    setConcurrentDDL := fun _ s => .ok (s + 1) }

/-- A Table2Queue run in which every step succeeds: two enqueues, one
reorg handle copied back, two deletes, and the flag cleared — six staged
changes. -/
def envTokC8 : Table2QueueEnv Nat :=
  { txnErr := none
    isConcurrentDDL := fun _ => .ok true
    getJobsBySQL := fun _ => .ok [jobQ1, jobQ2]
    mayNeedReorg := fun job => job.jobType == ActionType.addIndex
    enQueueDDLJobNoUpdate := fun _ _ s => .ok (s + 1)
    getReorgRows := fun _ =>
      .ok [{ jobID := 1, eleID := 1, eleType := [95, 105, 95],
             startKey := [116], endKey := [117], physicalID := 31 }]
    updateDDLReorgHandle := fun _ s => .ok (s + 1)
    deleteDDLJobTable := fun s => .ok (s + 1)
    deleteDDLReorgTable := fun s => .ok (s + 1)
    setConcurrentDDL := fun _ s => .ok (s + 1) }

/-- C8 witness: the theorem applied to the concrete runs — the failing
Queue2Table run leaves the durable state untouched (the staged insert of
job 1 does not persist) and surfaces the second insert's error; the
successful Table2Queue run commits all six staged changes. -/
theorem migration_bridge_atomic_witness :
    MoveJobFromQueue2Table seC8 envQbadC8 false = (0, some Err.retryable) ∧
    MoveJobFromTable2Queue seC8 envTokC8 = (6, none) :=
  ⟨(migration_bridge_atomic seC8 envQbadC8 envTokC8 false Err.retryable
      Err.retryable 0 6 rfl rfl).1 (by decide),
   (migration_bridge_atomic seC8 envQbadC8 envTokC8 false Err.retryable
      Err.retryable 0 6 rfl rfl).2.2.2 (by decide)⟩
